import Mathlib

/-!
Verification development for the type/value core of a small modeling
language interpreter. Two source files are embedded:

* `src/unnamed/part_000` (namespace `Interp`): the `Value`/`Type`
  hierarchy of the main module — `RangeValue`, `RecordValue`,
  `EitherValue`, `ArrayValue`, the `Type` factory `Type.make` and the
  concrete `RangeType`/`RecordType`/`EitherType`/`ArrayType`
  constructors.
* `src/types/either.js` (namespace `EitherModule`): the newer
  either-type module — `EitherValue`, `EitherTag`, `EitherVariant`,
  `EitherType`.

`environment.js` and `factory.js` are required by the sources but are
not part of the provided tree; where they are needed they are modelled
from the spec (see the doc comments on `Interp.Env` and
`EitherModule` below).
-/

namespace Interp

/-- Parsed type-declaration nodes, as consumed by `Type.make` in
`src/unnamed/part_000` (`decl.kind` dispatch): `range` carries
`decl.low.value`/`decl.high.value`, `record`/`either` carry
`decl.fields` (each with `field.id.value` and `field.type`), `alias`
carries `decl.value`, `generic` carries `decl.base.value`,
`decl.args[0]` and `decl.indexBy`; any other kind is kept abstractly as
its kind string. -/
inductive TypeDecl where
  | range (low high : Int)
  | record (fields : List (String × TypeDecl))
  | either (fields : List (String × TypeDecl))
  | alias (value : String)
  | generic (base : String) (arg : TypeDecl) (indexBy : TypeDecl)
  | unknown (kind : String)
deriving Repr

/-- Runtime `Type` objects built by `Type.make`. The JS objects also
carry `decl`, `env` and an optional display `name` (used only for
rendering and diagnostics); those fields never influence the behaviour
embedded here, so they are not carried.

* `rangeTy low high` — `RangeType` (`this.low = decl.low.value`,
  `this.high = decl.high.value`; the constructor performs no check).
* `recordTy fieldtypes` — `RecordType` (`this.fieldtypes`, one entry
  per declared field, in declaration order).
* `eitherTy fieldtypes` — `EitherType` of `part_000`.
* `arrayTy valuetype indextype` — `ArrayType` (`this.valuetype`,
  `this.indextype`). -/
inductive Ty where
  | rangeTy (low high : Int)
  | recordTy (fieldtypes : List (String × Ty))
  | eitherTy (fieldtypes : List (String × Ty))
  | arrayTy (valuetype : Ty) (indextype : Ty)
deriving Repr

/-- Runtime `Value` objects. Each JS value holds `this.type`; that
type is carried in the first argument of every constructor.

* `rangeV` — `RangeValue` with its current integer `this.value`.
* `recordV` — `RecordValue`; its children are the JS object's own
  properties `this[fieldtype.name]`, kept here as an association list
  in property-insertion order.
* `eitherV` — the `part_000` `EitherValue`: `this.value` is the active
  tag name and `this[this.value]` the nested value.
* `arrayV` — `ArrayValue` with `this.items`. -/
inductive Value where
  | rangeV (type : Ty) (value : Int)
  | recordV (type : Ty) (fields : List (String × Value))
  | eitherV (type : Ty) (tagname : String) (nested : Value)
  | arrayV (type : Ty) (items : List Value)
deriving Repr

/-- Errors thrown by the embedded `part_000` code. The source throws
plain `Error` objects; each constructor here names one `throw` site by
its message:
* `unknownType n` — `Unknown type ${decl.value}` (alias miss);
* `unknownTypeName n` — `Unknown type '${decl.base.value}'` (a
  `generic` whose base is not `Array`);
* `unknownKind k` — the fall-through `Unknown type '${name}': ...`;
* `outOfRange v` — `Cannot assign value of ${v} to range ...`
  (`RangeValue.assign`), the spec's `OutOfRange`. -/
inductive JsErr where
  | unknownType (n : String)
  | unknownTypeName (n : String)
  | unknownKind (k : String)
  | outOfRange (v : Int)
deriving Repr, DecidableEq

/-- Modelled from the spec: `environment.js` is required by
`part_000` but is not under `src/`. Per §3/§4.4 an Environment is a
mapping name→Type, a mapping name→Value and an optional parent
(scope chain); `assignType`/`assignVar` install in the local scope
only, `getType`/`getVar` check the local scope then delegate up the
parent chain, and a miss at the root reports "not found". -/
inductive Env where
  | root (types : List (String × Ty)) (vars : List (String × Value))
  | child (types : List (String × Ty)) (vars : List (String × Value)) (parent : Env)

/-- Modelled from the spec: `env.getType(name)` checks the local
scope, then delegates up the parent chain; a miss at the root returns
"not found" (`none`). -/
def Env.getType : Env → String → Option Ty
  | .root ts _, n => List.lookup n ts
  | .child ts _ parent, n =>
    match List.lookup n ts with
    | some t => some t
    | none => parent.getType n

/-- The local type frames of the scope chain, innermost first (a
specification-side view of the chain used to state what `getType`
resolves to). -/
def Env.typeFrames : Env → List (List (String × Ty))
  | .root ts _ => [ts]
  | .child ts _ parent => ts :: parent.typeFrames

/- `Type.make(decl, env, name)` from `src/unnamed/part_000`
(lines 140–162), together with the concrete constructors it calls:

* `range` → `new RangeType(...)`: copies `low`/`high` from the
  declaration, with no validation of the bounds;
* `record` → `new RecordType(...)`: `this.fieldtypes =
  decl.fields.map(field => ({name: field.id.value, type:
  Type.make(field.type, this.env)}))` — each field's type resolved in
  the same `env`, with no duplicate-name check;
* `either` → `new EitherType(...)`: same field mapping;
* `alias` → `env.getType(decl.value)`; throws `Unknown type` when the
  lookup misses, otherwise returns the looked-up Type itself;
* `generic` → `new ArrayType(...)` when the base is `Array`
  (`valuetype` from `args[0]`, then `indextype` from `indexBy`),
  otherwise throws;
* anything else → throws.

`makeFields` embeds the shared `decl.fields.map(...)` loop; a throw
inside the loop aborts the whole construction. -/
mutual

/-- `Type.make(decl, env, name)` from `src/unnamed/part_000`
(lines 140–162); see the comment above this `mutual` block. -/
def makeType : TypeDecl → Env → Except JsErr Ty
  | .range low high, _ => .ok (.rangeTy low high)
  | .record fields, env =>
    match makeFields fields env with
    | .ok fts => .ok (.recordTy fts)
    | .error e => .error e
  | .either fields, env =>
    match makeFields fields env with
    | .ok fts => .ok (.eitherTy fts)
    | .error e => .error e
  | .alias v, env =>
    match env.getType v with
    | some t => .ok t
    | none => .error (.unknownType v)
  | .generic base arg indexBy, env =>
    if base = "Array" then
      match makeType arg env with
      | .ok vt =>
        match makeType indexBy env with
        | .ok it => .ok (.arrayTy vt it)
        | .error e => .error e
      | .error e => .error e
    else .error (.unknownTypeName base)
  | .unknown kind, _ => .error (.unknownKind kind)

/-- The `fields.map` loop shared by `RecordType` and `EitherType`:
resolves each field's declared type via `Type.make` in the same
environment, in declaration order. -/
def makeFields : List (String × TypeDecl) → Env → Except JsErr (List (String × Ty))
  | [], _ => .ok []
  | (n, d) :: rest, env =>
    match makeType d env with
    | .ok t =>
      match makeFields rest env with
      | .ok ts => .ok ((n, t) :: ts)
      | .error e => .error e
    | .error e => .error e

end

/-- JS object property assignment `obj[n] = v`: updating an existing
property keeps its insertion position, a new property is appended.
Used to embed the `RecordValue` constructor's `this[fieldtype.name] =
...` writes, so that repeated field names overwrite as they do on a JS
object. -/
def setProp (obj : List (String × Value)) (n : String) (v : Value) :
    List (String × Value) :=
  match obj with
  | [] => [(n, v)]
  | (m, w) :: rest => if m = n then (m, v) :: rest else (m, w) :: setProp rest n v

/- `makeDefaultValue` and the value constructors it invokes:

* `RangeType.makeDefaultValue` → `new RangeValue(this)`:
  `this.value = this.type.low` (part_000 lines 17–22);
* `RecordType.makeDefaultValue` → `new RecordValue(this)`:
  `this.type.fieldtypes.forEach(ft => this[ft.name] =
  ft.type.makeDefaultValue())` (lines 45–52), embedded by
  `defaultFieldsObj` folding `setProp` over the fields;
* `EitherType.makeDefaultValue` (part_000 variant) → `new
  EitherValue(this)`: `first = fieldtypes[0]; this.value = first.name;
  this[this.value] = first.type.makeDefaultValue()` (lines 72–79) —
  reading `fieldtypes[0]` of an empty list is a JS crash, embedded as
  `none`;
* `ArrayType.makeDefaultValue` → `new ArrayValue(this)`:
  `length = indextype.high - indextype.low + 1; this.items =
  Array.from({length}, () => valuetype.makeDefaultValue())`
  (lines 110–118). `Array.from` clamps a negative length to `0`
  (embedded by `Int.toNat`); when the index type is not a `RangeType`
  the subtraction is `undefined - undefined = NaN` and `Array.from`
  yields `[]`.

The `Option` result is `none` exactly when the JS construction would
crash (an empty either, or a crash in a nested default). -/
mutual

/-- `type.makeDefaultValue()` dispatched over the concrete `Type`
classes of `src/unnamed/part_000`; see the comment above this
`mutual` block. -/
def Ty.makeDefaultValue : Ty → Option Value
  | .rangeTy low high => some (.rangeV (.rangeTy low high) low)
  | .recordTy fts =>
    match defaultFieldsObj fts [] with
    | some obj => some (.recordV (.recordTy fts) obj)
    | none => none
  | .eitherTy fts =>
    match fts with
    | [] => none
    | (n, t) :: rest =>
      match t.makeDefaultValue with
      | some v => some (.eitherV (.eitherTy ((n, t) :: rest)) n v)
      | none => none
  | .arrayTy vt it =>
    match it with
    | .rangeTy low high =>
      match vt.makeDefaultValue with
      | some v =>
        some (.arrayV (.arrayTy vt (.rangeTy low high))
          (List.replicate (high - low + 1).toNat v))
      | none => none
    | _ => some (.arrayV (.arrayTy vt it) [])

/-- The `RecordValue` constructor's `forEach` loop: assigns each
field's fresh default onto the object under the field's name, in
declaration order. -/
def defaultFieldsObj : List (String × Ty) → List (String × Value) →
    Option (List (String × Value))
  | [], obj => some obj
  | (n, t) :: rest, obj =>
    match t.makeDefaultValue with
    | some v => defaultFieldsObj rest (setProp obj n v)
    | none => none

end

/-- The state of a `RangeValue` (part_000 lines 17–43): its type's
bounds (`this.type.low`, `this.type.high` — a `RangeType` is immutable
after construction, so the bounds are carried directly) and the current
integer `this.value`. -/
structure RangeValue where
  low : Int
  high : Int
  value : Int
deriving Repr, DecidableEq

/-- `RangeValue.assign(newValue)` (part_000 lines 24–29): throws
`Cannot assign value of ... to range ...` (the spec's `OutOfRange`)
when `newValue < this.type.low || newValue > this.type.high`, else
sets `this.value = newValue`. The result pairs the object's state
after the call with the error, if any: the `throw` happens before the
mutation, so on error the state is returned unchanged. -/
def RangeValue.assign (self : RangeValue) (newValue : Int) :
    RangeValue × Option JsErr :=
  if newValue < self.low ∨ newValue > self.high then
    (self, some (.outOfRange newValue))
  else
    ({ self with value := newValue }, none)

end Interp

namespace EitherModule

/-!
Embedding of `src/types/either.js`. This module's siblings
(`value.js`, `type.js`, `factory.js`, `errors.js`, `environment.js`)
are not under `src/`; where their behaviour is needed it is modelled
from the spec, as noted on each definition. JS reference identity,
which the source compares with `==` on `Type`, `EitherVariant` and
`EitherTag` objects, is embedded as follows: every `EitherType` carries
a numeric identity `id` (distinct constructions receive distinct ids),
and an `EitherVariant` is identified by its parent's id together with
its position — the source creates exactly one `EitherVariant` per
field and exactly one `EitherTag` per variant (`this.tag = new
EitherTag(this, name)`), so reference equality of tags coincides with
structural equality of the variant data carried here.
-/

/-- An `EitherVariant` (either.js lines 103–118) and, interchangeably,
its singleton `EitherTag` (lines 83–97): `parentId` is the identity of
`this.parenttype`, `idx` the variant's position among the parent's
fields, `name` the tag name (`tag.name` equals the variant's name),
and `recordtype` the nested record type made by the factory when the
declaration is not an `enumvariant` (`none` for enum variants).
Nested record types are drawn from the `Interp.Ty` universe, since the
factory and the record-type module are not under `src/`. -/
structure EVariant where
  parentId : Nat
  idx : Nat
  name : String
  recordtype : Option Interp.Ty
deriving Repr

/-- An `EitherType` (either.js lines 124–141): its reference identity
`id` and its `this.fieldtypes`, one `EitherVariant` per declared
field, in declaration order. -/
structure EType where
  id : Nat
  fieldtypes : List EVariant
deriving Repr

/-- Heap of nested record values. The source stores the nested value
of a record variant as a JS object reference
(`this[this.tag.name] = ...`); to reason about sharing, those record
values live in an explicit heap and an `EitherValue` holds an address
into it. -/
abbrev Addr := Nat

/-- The heap holding the nested record values of `EitherValue`s. -/
abbrev Heap := List Interp.Value

/-- The state of an `EitherValue` (either.js lines 12–73): the
identity of `this.type`, the current `this.tag`, and the nested value
attribute `this[this.tag.name]` — `none` when the active variant has
no nested value, `some a` when the object has the attribute, holding a
reference `a` into the heap. (The source only ever stores or deletes
the attribute named after the current tag, so a single optional slot
captures the object's own properties.) -/
structure EV where
  typeId : Nat
  tag : EVariant
  nested : Option Addr
deriving Repr

/-- Errors raised by the embedded either.js code:
* `typeMismatch` — `new errors.Internal('Cannot assign value of ...')`
  at the end of `EitherValue.assign`, the spec's `TypeMismatch`;
* `referenceErrorOthe` — the JS `ReferenceError: othe is not defined`
  raised by `EitherValue.equals` line 51, which reads
  `other[othe.tag.name]` (`othe` is bound nowhere). -/
inductive EErr where
  | typeMismatch
  | referenceErrorOthe
deriving Repr, DecidableEq

/-- `new EitherValue(type)` (either.js lines 13–22): reads
`this.type.fieldtypes[0]` (a crash — `none` — on an empty variant
list), sets `this.tag = first.tag`, and when `first.recordtype` is
present stores a fresh `first.recordtype.makeDefaultValue()` under the
tag's name (here: allocated at a fresh heap address); an enum variant
stores nothing. Returns the value together with the extended heap;
`none` also when the nested default construction itself crashes. -/
def makeEitherValue (t : EType) (σ : Heap) : Option (EV × Heap) :=
  match t.fieldtypes with
  | [] => none
  | first :: _ =>
    match first.recordtype with
    | some rt =>
      match rt.makeDefaultValue with
      | some v => some (⟨t.id, first, some σ.length⟩, σ ++ [v])
      | none => none
    | none => some (⟨t.id, first, none⟩, σ)

/-- The argument of `EitherValue.assign`: an `EitherValue`, a bare
`EitherTag` (identified with its `EitherVariant`, see `EVariant`), or
any other JS value (which the `instanceof` tests both reject). -/
inductive AssignArg where
  | eitherVal (v : EV)
  | tag (t : EVariant)
  | other
deriving Repr

/-- `EitherValue.assign(newValue)` (either.js lines 24–41):

* `newValue instanceof EitherValue && this.type == newValue.type` —
  deletes `this[this.tag.name]`, copies `newValue.tag`, and when
  `newValue` has a nested attribute copies the reference
  (`this[this.tag.name] = newValue[this.tag.name]` — the same object,
  not a deep copy);
* `newValue instanceof EitherTag && newValue.type.parenttype ==
  this.tag.type.parenttype` — deletes `this[this.tag.name]` and sets
  `this.tag = newValue`; no nested attribute is installed;
* otherwise — throws `errors.Internal` (the spec's `TypeMismatch`)
  before any mutation, so the value is unchanged on error.

The embedding returns the updated value; an error means the object was
left untouched. The heap is never touched by `assign`. -/
def EV.assign (self : EV) (arg : AssignArg) : Except EErr EV :=
  match arg with
  | .eitherVal nv =>
    if self.typeId = nv.typeId then
      .ok { self with tag := nv.tag, nested := nv.nested }
    else .error .typeMismatch
  | .tag t =>
    if t.parentId = self.tag.parentId then
      .ok { self with tag := t, nested := none }
    else .error .typeMismatch
  | .other => .error .typeMismatch

/-- Reference equality of `EitherTag` objects (`this.tag !=
other.tag`). Each `EitherVariant` owns exactly one `EitherTag`, and an
`EitherVariant` is identified by its parent type's identity and its
position among the parent's fields, so for the singleton tags the
source ever stores, reference equality coincides with equality of
`(parentId, idx, name)`. -/
def tagRefEq (a b : EVariant) : Bool :=
  a.parentId == b.parentId && a.idx == b.idx && a.name == b.name

/-- `EitherValue.equals(other)` (either.js lines 43–55): `false` when
`this.type != other.type`; `false` when `this.tag != other.tag`; then,
when `this` has a nested attribute (`this.tag.name in this`), the
source evaluates `other[othe.tag.name]` — but `othe` is not defined
anywhere, so this branch raises `ReferenceError` instead of the
recursive comparison; with no nested attribute it returns `true`. -/
def EV.equals (self other : EV) : Except EErr Bool :=
  if self.typeId ≠ other.typeId then .ok false
  else if tagRefEq self.tag other.tag = false then .ok false
  else if self.nested.isSome then .error .referenceErrorOthe
  else .ok true

/-- Reading the nested record value of an `EitherValue` through its
heap reference (`this[this.tag.name]` dereferenced). -/
def readNested (v : EV) (σ : Heap) : Option Interp.Value :=
  match v.nested with
  | some a => σ[a]?
  | none => none

/-- A parsed variant declaration inside an `either` type declaration,
as consumed by the `EitherVariant` constructor (either.js
lines 104–114): `decl.kind == 'enumvariant'` carries only the name;
any other kind carries a nested type declaration `decl.type` resolved
through the factory. -/
inductive VariantDecl where
  | enumvariant (name : String)
  | recordvariant (name : String) (type : Interp.TypeDecl)
deriving Repr

/-- Modelled from the spec: `environment.js` is not under `src/`.
The variable half of an Environment frame, as mutated by
`EitherVariant` — `this.env.assignVar(name, this.tag)` installs the
variant's singleton tag in the local scope, a new binding shadowing
(preceding) older ones. Only tag bindings are ever installed by the
code embedded here, so the frame maps names to `EVariant` tags. -/
structure EnvB where
  vars : List (String × EVariant)
deriving Repr

/-- Modelled from the spec: `env.assignVar(name, value)` installs in
the local scope; redefining an existing local name overwrites it
(the most recent binding is found first). -/
def EnvB.assignVar (env : EnvB) (n : String) (tag : EVariant) : EnvB :=
  { env with vars := (n, tag) :: env.vars }

/-- `new EitherVariant(decl, env, name, parenttype)` (either.js
lines 104–114): creates the singleton tag
(`this.tag = new EitherTag(this, name)`); for an `enumvariant` it
registers that tag as a variable binding
(`this.env.assignVar(name, this.tag)`); otherwise it resolves the
nested record type through the factory (`makeType(decl.type,
this.env)`), which adds no variable binding. `factory.js` is not
under `src/`; modelled from the spec (§4.1 dispatch) by the
`part_000` `Type.make`, which registers nothing — the theorems
restrict nested payloads to either-free declarations so that this
modelling is faithful. -/
def makeEitherVariant (d : VariantDecl) (tenv : Interp.Env) (venv : EnvB)
    (parentId idx : Nat) : Except Interp.JsErr (EVariant × EnvB) :=
  match d with
  | .enumvariant n =>
    let v : EVariant := ⟨parentId, idx, n, none⟩
    .ok (v, venv.assignVar n v)
  | .recordvariant n dt =>
    match Interp.makeType dt tenv with
    | .ok rt => .ok (⟨parentId, idx, n, some rt⟩, venv)
    | .error e => .error e

/-- The `decl.fields.map(field => new EitherVariant(...))` loop of the
`EitherType` constructor (either.js lines 127–129), threading the
environment mutations of each variant in declaration order. -/
def makeEitherVariants (ds : List VariantDecl) (tenv : Interp.Env) (venv : EnvB)
    (parentId idx : Nat) : Except Interp.JsErr (List EVariant × EnvB) :=
  match ds with
  | [] => .ok ([], venv)
  | d :: rest =>
    match makeEitherVariant d tenv venv parentId idx with
    | .ok (v, venv') =>
      match makeEitherVariants rest tenv venv' parentId (idx + 1) with
      | .ok (vs, venv'') => .ok (v :: vs, venv'')
      | .error e => .error e
    | .error e => .error e

/-- `new EitherType(decl, env, name)` (either.js lines 125–130), i.e.
what `Type.make` does for an `either` declaration: constructs one
`EitherVariant` per field, mutating the defining environment as a side
effect, before any value is created. `id` is the fresh reference
identity of the new `EitherType` object. -/
def makeEitherType (id : Nat) (ds : List VariantDecl) (tenv : Interp.Env)
    (venv : EnvB) : Except Interp.JsErr (EType × EnvB) :=
  match makeEitherVariants ds tenv venv id 0 with
  | .ok (vs, venv') => .ok (⟨id, vs⟩, venv')
  | .error e => .error e

/-- Specification-side description of the bindings an either
declaration installs: one binding per `enumvariant`, carrying its
singleton tag, in declaration order; record variants contribute
nothing. -/
def enumTagBindings (parentId : Nat) : List VariantDecl → Nat →
    List (String × EVariant)
  | [], _ => []
  | .enumvariant n :: rest, idx =>
    (n, ⟨parentId, idx, n, none⟩) :: enumTagBindings parentId rest (idx + 1)
  | .recordvariant _ _ :: rest, idx => enumTagBindings parentId rest (idx + 1)

end EitherModule

mutual

/-- Whether a type declaration contains no `either` declaration (so
that resolving it can register no variant tags). Used to delimit the
regime in which nested record-variant payloads are faithfully modelled
by the `part_000` `Type.make`. -/
def Interp.TypeDecl.eitherFree : Interp.TypeDecl → Bool
  | .range _ _ => true
  | .record fields => Interp.fieldsEitherFree fields
  | .either _ => false
  | .alias _ => true
  | .generic _ arg indexBy => arg.eitherFree && indexBy.eitherFree
  | .unknown _ => true

/-- `eitherFree` over a field list. -/
def Interp.fieldsEitherFree : List (String × Interp.TypeDecl) → Bool
  | [] => true
  | (_, d) :: rest => d.eitherFree && Interp.fieldsEitherFree rest

end

namespace ValueOps

/-!
Modelled from the spec: the `field`/`at` child accessors of
`RecordValue`/`ArrayValue` are not under `src/` (the `part_000`
classes expose their children as plain properties and the newer
`record`/`array` value modules are absent; only `src/types/either.js`
of that hierarchy is provided). Per §4.2/§7: record and array values
expose no wholesale `assign`; mutation happens only through children
reached via `field(name) -> Value` (fails `UnknownField`) or
`at(indexValue) -> Value` (fails `IndexOutOfRange` outside
`indexType`'s domain), and both return a live mutable reference,
never a copy. To express "live mutable reference", children live in
an explicit heap and the accessors return the stored heap address.
-/

/-- Heap address of a child value. -/
abbrev Addr := Nat

/-- Heap of child values (the mutable objects the references point
to). -/
abbrev Heap := List Interp.Value

/-- Modelled from the spec: errors of the child accessors, §7
(`UnknownField` — lookup of a nonexistent field; `IndexOutOfRange` —
out-of-domain index). -/
inductive AccessErr where
  | unknownField (n : String)
  | indexOutOfRange (i : Int)
deriving Repr, DecidableEq

/-- Modelled from the spec: a record value's children, one live
reference per field, in declaration order (§3: one child Value per
field, names unique within the record). -/
structure RecordValueR where
  fields : List (String × Addr)
deriving Repr, DecidableEq

/-- Modelled from the spec: `field(name) -> Value` returns the live
reference to the named child and fails `UnknownField` for a name not
among the record's fields. -/
def RecordValueR.field (r : RecordValueR) (n : String) : Except AccessErr Addr :=
  match List.lookup n r.fields with
  | some a => .ok a
  | none => .error (.unknownField n)

/-- Modelled from the spec: an array value's children, one live
reference per index position of `indexType`'s domain
`[indexLow, indexHigh]`, physical position `i - indexLow` for logical
index `i` (§3: access translates a logical index to a physical
position). -/
structure ArrayValueR where
  indexLow : Int
  indexHigh : Int
  items : List Addr
deriving Repr, DecidableEq

/-- Modelled from the spec: `at(indexValue) -> Value` returns the live
reference for an index inside `indexType`'s domain and fails
`IndexOutOfRange` outside it. `i` is the integer carried by the index
value. (For a well-formed array `items` has exactly one slot per
domain position, so the inner lookup cannot miss; a miss is reported
as the same out-of-range failure.) -/
def ArrayValueR.atIndex (a : ArrayValueR) (i : Int) : Except AccessErr Addr :=
  if i < a.indexLow ∨ i > a.indexHigh then .error (.indexOutOfRange i)
  else
    match a.items[(i - a.indexLow).toNat]? with
    | some addr => .ok addr
    | none => .error (.indexOutOfRange i)

end ValueOps

/-!
## Theorems

One theorem per claim (C1–C10), with auxiliary lemmas where needed.
-/

/-- Specification-side reading of "bound in the environment chain":
the innermost binding of a name across the chain's local type frames. -/
def firstBindingIn (frames : List (List (String × Interp.Ty))) (n : String) :
    Option Interp.Ty :=
  match frames with
  | [] => none
  | f :: rest =>
    match List.lookup n f with
    | some t => some t
    | none => firstBindingIn rest n

/-- `env.getType` resolves exactly to the innermost binding across the
chain's local frames. -/
theorem Interp.Env.getType_eq_firstBindingIn (env : Interp.Env) (n : String) :
    env.getType n = firstBindingIn env.typeFrames n := by
  induction env with
  | root ts vs =>
    simp only [Interp.Env.getType, Interp.Env.typeFrames, firstBindingIn]
    cases List.lookup n ts <;> rfl
  | child ts vs parent ih =>
    simp only [Interp.Env.getType, Interp.Env.typeFrames, firstBindingIn]
    cases List.lookup n ts with
    | none => simpa using ih
    | some t => rfl

/-- C1: `RangeValue.assign(v)` succeeds and sets the stored value to
`v` exactly when `low ≤ v ≤ high`; when `v < low` or `v > high` it
fails (the `OutOfRange` throw) and the previously stored value is
unchanged. -/
theorem rangeAssign_ok_iff_inBounds (r : Interp.RangeValue) (v : Int) :
    (r.assign v = ({ r with value := v }, none) ↔ r.low ≤ v ∧ v ≤ r.high) ∧
    (v < r.low ∨ r.high < v → r.assign v = (r, some (.outOfRange v))) := by
  by_cases hc : v < r.low ∨ v > r.high
  · rw [Interp.RangeValue.assign, if_pos hc]
    refine ⟨⟨fun h => ?_, fun h => ?_⟩, fun _ => rfl⟩
    · exact absurd (congrArg Prod.snd h) (by simp)
    · omega
  · rw [Interp.RangeValue.assign, if_neg hc]
    refine ⟨⟨fun _ => ?_, fun _ => rfl⟩, fun h => ?_⟩
    · omega
    · omega

/-- Witness for C1: in `RangeType(0, 9)`, assigning `5` to a value
holding `0` succeeds and stores `5`; assigning `10` fails out of range
and leaves the stored `5` unchanged. -/
theorem rangeAssign_ok_iff_inBounds_witness :
    (Interp.RangeValue.mk 0 9 0).assign 5 = (⟨0, 9, 5⟩, none) ∧
    (Interp.RangeValue.mk 0 9 5).assign 10 =
      (⟨0, 9, 5⟩, some (.outOfRange 10)) :=
  ⟨(rangeAssign_ok_iff_inBounds ⟨0, 9, 0⟩ 5).1.mpr (by decide),
   (rangeAssign_ok_iff_inBounds ⟨0, 9, 5⟩ 10).2 (by decide)⟩

/-- C2 counterexample: `Type.make` on the range declaration
`5..3` (low `5` > high `3`) does not fail with `InvalidRange` — it
succeeds, returning a `RangeType` with the inverted bounds. The
`RangeType` constructor (part_000 lines 165–174) copies
`decl.low.value` and `decl.high.value` with no validation. -/
theorem rangeMake_lowGtHigh_succeeds :
    Interp.makeType (.range 5 3) (.root [] []) = .ok (.rangeTy 5 3) := rfl

/-- C2 (amended): `Type.make` on a range declaration always succeeds —
it performs no bounds validation at all — and the resulting
`RangeType` carries exactly the declared bounds, even when
`low > high`. -/
theorem rangeMake_carries_declared_bounds (low high : Int) (env : Interp.Env) :
    Interp.makeType (.range low high) env = .ok (.rangeTy low high) := by
  simp [Interp.makeType]

/-- C3 counterexample: `Type.make` on a record declaration with two
fields both named `x` does not fail with `DuplicateField` — it
succeeds, and the resulting `RecordType` keeps both entries. The
`RecordType` constructor (part_000 lines 176–187) maps over
`decl.fields` with no duplicate-name check. -/
theorem recordMake_duplicate_name_succeeds :
    Interp.makeType (.record [("x", .range 0 1), ("x", .range 2 3)]) (.root [] []) =
      .ok (.recordTy [("x", .rangeTy 0 1), ("x", .rangeTy 2 3)]) := rfl

/-- C3 (amended): `Type.make` on a record declaration performs no
duplicate-field check: whenever each field's declared type resolves in
the given environment (the same environment for every field, duplicate
names or not), it succeeds with exactly those resolved field types, in
declaration order. -/
theorem recordMake_resolves_each_field (env : Interp.Env)
    (fields : List (String × Interp.TypeDecl)) (fts : List (String × Interp.Ty))
    (h : List.Forall₂
      (fun p q => q.1 = p.1 ∧ Interp.makeType p.2 env = .ok q.2) fields fts) :
    Interp.makeType (.record fields) env = .ok (.recordTy fts) := by
  have hf : Interp.makeFields fields env = .ok fts := by
    induction h with
    | nil => rfl
    | cons hpq _ ih =>
      obtain ⟨h1, h2⟩ := hpq
      simp only [Interp.makeFields, h2, ih]
      rw [← h1]
  simp [Interp.makeType, hf]

/-- Witness for C3 (amended): the duplicate-named record from the
counterexample resolves both fields through the same environment and
succeeds. -/
theorem recordMake_resolves_each_field_witness :
    Interp.makeType (.record [("x", .range 0 1), ("x", .range 2 3)]) (.root [] []) =
      .ok (.recordTy [("x", .rangeTy 0 1), ("x", .rangeTy 2 3)]) :=
  recordMake_resolves_each_field (.root [] []) _ _
    (.cons ⟨rfl, rfl⟩ (.cons ⟨rfl, rfl⟩ .nil))

/-- C4: `Type.make` on an alias declaration resolves through the
environment chain and returns the very `Type` already registered —
the lookup result itself, with no copy and no new identity; when the
name is bound in no frame of the chain it fails with the
`Unknown type` throw (the spec's `UnknownType`). -/
theorem aliasMake_returns_registered_type (env : Interp.Env) (nm : String) :
    (∀ t, firstBindingIn env.typeFrames nm = some t →
      Interp.makeType (.alias nm) env = .ok t) ∧
    ((∀ frame ∈ env.typeFrames, List.lookup nm frame = none) →
      Interp.makeType (.alias nm) env = .error (.unknownType nm)) := by
  have hnone : ∀ frames : List (List (String × Interp.Ty)),
      (∀ frame ∈ frames, List.lookup nm frame = none) →
      firstBindingIn frames nm = none := by
    intro frames
    induction frames with
    | nil => intro _; rfl
    | cons f rest ih =>
      intro hall
      simp only [firstBindingIn, hall f (by simp)]
      exact ih fun fr hfr => hall fr (by simp [hfr])
  constructor
  · intro t ht
    simp [Interp.makeType, Interp.Env.getType_eq_firstBindingIn, ht]
  · intro hall
    simp [Interp.makeType, Interp.Env.getType_eq_firstBindingIn,
      hnone env.typeFrames hall]

/-- Witness for C4: in a chain whose parent frame registers
`A ↦ RangeType(0, 9)` and whose local frame is empty, `Type.make` on
the alias `A` returns exactly the registered type; in an empty chain
it fails `Unknown type`. -/
theorem aliasMake_returns_registered_type_witness :
    Interp.makeType (.alias "A")
        (.child [] [] (.root [("A", .rangeTy 0 9)] [])) =
      .ok (.rangeTy 0 9) ∧
    Interp.makeType (.alias "A") (.root [] []) =
      .error (.unknownType "A") :=
  ⟨(aliasMake_returns_registered_type
      (.child [] [] (.root [("A", .rangeTy 0 9)] [])) "A").1
    (.rangeTy 0 9) rfl,
   (aliasMake_returns_registered_type (.root [] []) "A").2
    (by intro frame hf; simp [Interp.Env.typeFrames] at hf; simp [hf])⟩

/-- Assigning a property absent from a JS object appends it. -/
theorem Interp.setProp_of_not_mem (obj : List (String × Interp.Value)) (n : String)
    (v : Interp.Value) (h : ∀ q ∈ obj, q.1 ≠ n) :
    Interp.setProp obj n v = obj ++ [(n, v)] := by
  induction obj with
  | nil => rfl
  | cons q rest ih =>
    obtain ⟨m, w⟩ := q
    simp only [Interp.setProp]
    rw [if_neg (h (m, w) (by simp))]
    rw [ih fun q hq => h q (by simp [hq])]
    simp

/-- The `RecordValue` constructor loop, run on fields with pairwise
distinct names over an object holding none of them, appends one fresh
default child per field, in declaration order. -/
theorem Interp.defaultFieldsObj_eq_append (fts : List (String × Interp.Ty)) :
    ∀ (dflts : List (String × Interp.Value)) (obj : List (String × Interp.Value)),
      (∀ p ∈ fts, ∀ q ∈ obj, q.1 ≠ p.1) →
      (fts.map Prod.fst).Nodup →
      List.Forall₂ (fun p q => q.1 = p.1 ∧ p.2.makeDefaultValue = some q.2)
        fts dflts →
      Interp.defaultFieldsObj fts obj = some (obj ++ dflts) := by
  induction fts with
  | nil =>
    intro dflts obj _ _ h
    cases h
    simp [Interp.defaultFieldsObj]
  | cons p rest ih =>
    obtain ⟨n, t⟩ := p
    intro dflts obj hdisj hnd h
    cases h with
    | cons hpq htail =>
      rename_i q qs
      obtain ⟨h1, h2⟩ := hpq
      have hnd2 : (n :: rest.map Prod.fst).Nodup := by
        simpa only [List.map_cons] using hnd
      have hn' : n ∉ rest.map Prod.fst := (List.nodup_cons.mp hnd2).1
      have hndr : (rest.map Prod.fst).Nodup := (List.nodup_cons.mp hnd2).2
      have h1' : q.1 = n := h1
      simp only [Interp.defaultFieldsObj, h2]
      rw [Interp.setProp_of_not_mem obj n _
        (fun r hr => hdisj (n, t) (by simp) r hr)]
      rw [ih qs (obj ++ [(n, q.2)]) ?hd hndr htail]
      · rw [← h1']
        simp
      case hd =>
        intro pp hpp r hr
        rcases List.mem_append.mp hr with hro | hrn
        · exact hdisj pp (by simp [hpp]) r hro
        · have hre : r = (n, q.2) := by simpa using hrn
          subst hre
          intro hEq
          refine hn' ?_
          rw [show n = pp.1 from hEq]
          exact List.mem_map_of_mem Prod.fst hpp

/-- C5: `makeDefaultValue` produces a structurally valid default for
every shape: a `RangeValue` holding exactly `low`; a `RecordValue`
with one fresh default child per declared field (stated for the
record types of the data model, whose field names are pairwise
distinct); an `EitherValue` whose active tag is the first declared
variant, carrying a fresh default nested value exactly when that
variant is a record variant (fresh heap cell for a record variant,
no nested slot for an enum variant); an `ArrayValue` with exactly
`high - low + 1` children, each a default of the element type. -/
theorem makeDefaultValue_structurally_valid
    (low high : Int)
    (fts : List (String × Interp.Ty)) (dflts : List (String × Interp.Value))
    (et : EitherModule.EType) (first : EitherModule.EVariant)
    (rest : List EitherModule.EVariant) (σ : EitherModule.Heap)
    (rt : Interp.Ty) (dv : Interp.Value)
    (vt : Interp.Ty) (l h : Int) (v : Interp.Value) :
    ((Interp.Ty.rangeTy low high).makeDefaultValue =
      some (.rangeV (.rangeTy low high) low)) ∧
    ((fts.map Prod.fst).Nodup →
      List.Forall₂ (fun p q => q.1 = p.1 ∧ p.2.makeDefaultValue = some q.2)
        fts dflts →
      (Interp.Ty.recordTy fts).makeDefaultValue =
        some (.recordV (.recordTy fts) dflts)) ∧
    (et.fieldtypes = first :: rest → first.recordtype = some rt →
      rt.makeDefaultValue = some dv →
      EitherModule.makeEitherValue et σ =
        some (⟨et.id, first, some σ.length⟩, σ ++ [dv])) ∧
    (et.fieldtypes = first :: rest → first.recordtype = none →
      EitherModule.makeEitherValue et σ = some (⟨et.id, first, none⟩, σ)) ∧
    (vt.makeDefaultValue = some v → l ≤ h →
      (Interp.Ty.arrayTy vt (.rangeTy l h)).makeDefaultValue =
        some (.arrayV (.arrayTy vt (.rangeTy l h))
          (List.replicate (h - l + 1).toNat v)) ∧
      ((h - l + 1).toNat : Int) = h - l + 1) := by
  refine ⟨rfl, ?_, ?_, ?_, ?_⟩
  · intro hnd hf
    have hob := Interp.defaultFieldsObj_eq_append fts dflts [] (by simp) hnd hf
    simp only [Interp.Ty.makeDefaultValue, hob]
    simp
  · intro hft hrt hdv
    simp [EitherModule.makeEitherValue, hft, hrt, hdv]
  · intro hft hrt
    simp [EitherModule.makeEitherValue, hft, hrt]
  · intro hv hlh
    refine ⟨by simp [Interp.Ty.makeDefaultValue, hv], by omega⟩

/-- Witness for C5: concrete defaults of each shape — `Range(2,7)`
defaults to `2`; a two-field record defaults both fields; a one-record-
variant either allocates a fresh default payload while a one-enum-
variant either holds none; `Array<Range(0,1)>[Range(5,7)]` has
exactly `3` default slots. -/
theorem makeDefaultValue_structurally_valid_witness :
    (Interp.Ty.rangeTy 2 7).makeDefaultValue =
      some (.rangeV (.rangeTy 2 7) 2) ∧
    (Interp.Ty.recordTy
        [("x", .rangeTy 0 1), ("y", .rangeTy 3 5)]).makeDefaultValue =
      some (.recordV (.recordTy [("x", .rangeTy 0 1), ("y", .rangeTy 3 5)])
        [("x", .rangeV (.rangeTy 0 1) 0), ("y", .rangeV (.rangeTy 3 5) 3)]) ∧
    EitherModule.makeEitherValue ⟨0, [⟨0, 0, "A", some (.rangeTy 4 9)⟩]⟩ [] =
      some (⟨0, ⟨0, 0, "A", some (.rangeTy 4 9)⟩, some 0⟩,
        [.rangeV (.rangeTy 4 9) 4]) ∧
    EitherModule.makeEitherValue ⟨1, [⟨1, 0, "B", none⟩]⟩ [] =
      some (⟨1, ⟨1, 0, "B", none⟩, none⟩, []) ∧
    (Interp.Ty.arrayTy (.rangeTy 0 1) (.rangeTy 5 7)).makeDefaultValue =
      some (.arrayV (.arrayTy (.rangeTy 0 1) (.rangeTy 5 7))
        (List.replicate 3 (.rangeV (.rangeTy 0 1) 0))) := by
  refine ⟨(makeDefaultValue_structurally_valid 2 7 [] [] ⟨0, []⟩ ⟨0, 0, "", none⟩
      [] [] (.rangeTy 0 0) (.rangeV (.rangeTy 0 0) 0) (.rangeTy 0 0) 0 0
      (.rangeV (.rangeTy 0 0) 0)).1, ?_, ?_, ?_, ?_⟩
  · exact (makeDefaultValue_structurally_valid 0 0
      [("x", .rangeTy 0 1), ("y", .rangeTy 3 5)]
      [("x", .rangeV (.rangeTy 0 1) 0), ("y", .rangeV (.rangeTy 3 5) 3)]
      ⟨0, []⟩ ⟨0, 0, "", none⟩ [] [] (.rangeTy 0 0) (.rangeV (.rangeTy 0 0) 0)
      (.rangeTy 0 0) 0 0 (.rangeV (.rangeTy 0 0) 0)).2.1
      (by decide) (.cons ⟨rfl, rfl⟩ (.cons ⟨rfl, rfl⟩ .nil))
  · exact (makeDefaultValue_structurally_valid 0 0 [] []
      ⟨0, [⟨0, 0, "A", some (.rangeTy 4 9)⟩]⟩ ⟨0, 0, "A", some (.rangeTy 4 9)⟩
      [] [] (.rangeTy 4 9) (.rangeV (.rangeTy 4 9) 4)
      (.rangeTy 0 0) 0 0 (.rangeV (.rangeTy 0 0) 0)).2.2.1 rfl rfl rfl
  · exact (makeDefaultValue_structurally_valid 0 0 [] []
      ⟨1, [⟨1, 0, "B", none⟩]⟩ ⟨1, 0, "B", none⟩ [] [] (.rangeTy 0 0)
      (.rangeV (.rangeTy 0 0) 0)
      (.rangeTy 0 0) 0 0 (.rangeV (.rangeTy 0 0) 0)).2.2.2.1 rfl rfl
  · have := (makeDefaultValue_structurally_valid 0 0 [] [] ⟨0, []⟩
      ⟨0, 0, "", none⟩ [] [] (.rangeTy 0 0) (.rangeV (.rangeTy 0 0) 0)
      (.rangeTy 0 1) 5 7 (.rangeV (.rangeTy 0 1) 0)).2.2.2.2 rfl (by decide)
    simpa using this.1

/-- C6 counterexample: on an `EitherValue` of a type with enum variant
`A` (the current tag) and record variant `B`, assigning the bare tag
of `B` switches the tag but installs no fresh default nested value —
the nested slot ends up absent (`none`), although `B` is a record
variant. The tag branch of `EitherValue.assign` (either.js
lines 33–38) only deletes the old attribute and never calls
`makeDefaultValue`. -/
theorem eitherAssign_tag_no_fresh_default :
    EitherModule.EV.assign ⟨0, ⟨0, 0, "A", none⟩, none⟩
        (.tag ⟨0, 1, "B", some (.recordTy [("x", .rangeTy 0 1)])⟩) =
      .ok ⟨0, ⟨0, 1, "B", some (.recordTy [("x", .rangeTy 0 1)])⟩, none⟩ ∧
    (EitherModule.EVariant.mk 0 1 "B"
      (some (.recordTy [("x", .rangeTy 0 1)]))).recordtype.isSome = true :=
  ⟨rfl, rfl⟩

/-- C6 (amended): assigning a bare `EitherTag` of the same parent
`EitherType` switches the active tag and discards the previous nested
value, but installs no fresh default nested value — even when the new
variant is a record variant the nested slot is left absent; assigning
anything that is neither such a tag nor an `EitherValue` of the
identical `EitherType` fails with the `TypeMismatch` throw, which
happens before any mutation, leaving the value unchanged. -/
theorem eitherAssign_behaviour (e : EitherModule.EV) (t : EitherModule.EVariant)
    (nv : EitherModule.EV) :
    (t.parentId = e.tag.parentId →
      e.assign (.tag t) = .ok { e with tag := t, nested := none }) ∧
    (t.parentId ≠ e.tag.parentId →
      e.assign (.tag t) = .error .typeMismatch) ∧
    (nv.typeId ≠ e.typeId → e.assign (.eitherVal nv) = .error .typeMismatch) ∧
    e.assign .other = .error .typeMismatch := by
  refine ⟨fun h => ?_, fun h => ?_, fun h => ?_, rfl⟩
  · simp [EitherModule.EV.assign, h]
  · simp [EitherModule.EV.assign, h]
  · simp [EitherModule.EV.assign, Ne.symm h]

/-- Witness for C6 (amended): concrete tag switch (from enum `A` to
record variant `B`, ending with no nested slot), and concrete
`TypeMismatch` failures for a foreign `EitherValue` and for a
non-either argument. -/
theorem eitherAssign_behaviour_witness :
    EitherModule.EV.assign ⟨0, ⟨0, 0, "A", none⟩, none⟩
        (.tag ⟨0, 1, "B", some (.recordTy [("y", .rangeTy 0 1)])⟩) =
      .ok ⟨0, ⟨0, 1, "B", some (.recordTy [("y", .rangeTy 0 1)])⟩, none⟩ ∧
    EitherModule.EV.assign ⟨0, ⟨0, 0, "A", none⟩, none⟩
        (.eitherVal ⟨5, ⟨5, 0, "C", none⟩, none⟩) = .error .typeMismatch ∧
    EitherModule.EV.assign ⟨0, ⟨0, 0, "A", none⟩, none⟩ .other =
      .error .typeMismatch :=
  ⟨(eitherAssign_behaviour ⟨0, ⟨0, 0, "A", none⟩, none⟩
      ⟨0, 1, "B", some (.recordTy [("y", .rangeTy 0 1)])⟩
      ⟨5, ⟨5, 0, "C", none⟩, none⟩).1 rfl,
   (eitherAssign_behaviour ⟨0, ⟨0, 0, "A", none⟩, none⟩
      ⟨0, 1, "B", some (.recordTy [("y", .rangeTy 0 1)])⟩
      ⟨5, ⟨5, 0, "C", none⟩, none⟩).2.2.1 (by decide),
   (eitherAssign_behaviour ⟨0, ⟨0, 0, "A", none⟩, none⟩
      ⟨0, 1, "B", some (.recordTy [("y", .rangeTy 0 1)])⟩
      ⟨5, ⟨5, 0, "C", none⟩, none⟩).2.2.2⟩

/-- C7 (code bug): `EitherValue.equals` on two values of the identical
`EitherType` with the same active record-variant tag raises
`ReferenceError: othe is not defined` (either.js line 51 reads
`other[othe.tag.name]`; `othe` is bound nowhere — an evident typo
for `other`), instead of returning the recursive comparison of the
nested values. The remaining conjuncts record the branches that do
behave as claimed: same type and enum tag compare `true`; different
types or different active tags compare `false`. -/
theorem eitherEquals_record_variant_raises :
    EitherModule.EV.equals
        ⟨0, ⟨0, 0, "A", some (.recordTy [("x", .rangeTy 0 1)])⟩, some 0⟩
        ⟨0, ⟨0, 0, "A", some (.recordTy [("x", .rangeTy 0 1)])⟩, some 1⟩ =
      .error .referenceErrorOthe ∧
    EitherModule.EV.equals ⟨1, ⟨1, 0, "E", none⟩, none⟩
        ⟨1, ⟨1, 0, "E", none⟩, none⟩ = .ok true ∧
    EitherModule.EV.equals ⟨1, ⟨1, 0, "E", none⟩, none⟩
        ⟨2, ⟨2, 0, "E", none⟩, none⟩ = .ok false ∧
    EitherModule.EV.equals ⟨3, ⟨3, 0, "E", none⟩, none⟩
        ⟨3, ⟨3, 1, "F", none⟩, none⟩ = .ok false :=
  ⟨rfl, rfl, rfl, rfl⟩

/-- C9: assigning an `EitherValue` `s` of the identical `EitherType`
whose active variant is a record variant copies `s`'s nested payload
by reference, not by deep copy: afterwards the assignee's nested slot
holds the very same heap address, so a later mutation of `s`'s nested
payload (writing `v` at that address) is visible when reading the
nested value through the assignee. -/
theorem eitherAssign_shares_nested_payload (e s : EitherModule.EV)
    (a : EitherModule.Addr) (σ : EitherModule.Heap) (v : Interp.Value)
    (h1 : e.typeId = s.typeId) (_hrec : s.tag.recordtype.isSome = true)
    (h2 : s.nested = some a) (ha : a < σ.length) :
    e.assign (.eitherVal s) = .ok { e with tag := s.tag, nested := some a } ∧
    EitherModule.readNested { e with tag := s.tag, nested := some a }
      (σ.set a v) = some v := by
  constructor
  · simp [EitherModule.EV.assign, h1, h2]
  · simp only [EitherModule.readNested]
    exact List.getElem?_set_eq_of_lt v ha

/-- Witness for C9: with the heap holding one payload cell at address
`0`, assigning a record-variant either value that references that cell
shares the address, and overwriting the cell is visible through the
assignee. -/
theorem eitherAssign_shares_nested_payload_witness :
    EitherModule.EV.assign ⟨0, ⟨0, 0, "A", none⟩, none⟩
        (.eitherVal ⟨0, ⟨0, 1, "B", some (.recordTy [("x", .rangeTy 0 5)])⟩,
          some 0⟩) =
      .ok ⟨0, ⟨0, 1, "B", some (.recordTy [("x", .rangeTy 0 5)])⟩, some 0⟩ ∧
    EitherModule.readNested
        ⟨0, ⟨0, 1, "B", some (.recordTy [("x", .rangeTy 0 5)])⟩, some 0⟩
        (([.rangeV (.rangeTy 0 5) 0] : EitherModule.Heap).set 0
          (.rangeV (.rangeTy 0 5) 3)) =
      some (.rangeV (.rangeTy 0 5) 3) :=
  eitherAssign_shares_nested_payload ⟨0, ⟨0, 0, "A", none⟩, none⟩
    ⟨0, ⟨0, 1, "B", some (.recordTy [("x", .rangeTy 0 5)])⟩, some 0⟩ 0
    [.rangeV (.rangeTy 0 5) 0] (.rangeV (.rangeTy 0 5) 3)
    rfl rfl rfl (by decide)

/-- A successful association-list lookup returns a stored pair. -/
theorem lookup_mem_pairs {β : Type} (n : String) (b : β) :
    ∀ l : List (String × β), List.lookup n l = some b → (n, b) ∈ l := by
  intro l
  induction l with
  | nil => intro h; simp [List.lookup] at h
  | cons p rest ih =>
    obtain ⟨m, w⟩ := p
    intro h
    simp only [List.lookup] at h
    cases hm : (n == m) with
    | true =>
      rw [hm] at h
      simp only [if_pos] at h
      have hb : w = b := by simpa using h
      have hnm : n = m := by simpa using hm
      simp [hnm, hb]
    | false =>
      rw [hm] at h
      simp only [Bool.false_eq_true, if_false] at h
      exact List.mem_cons_of_mem _ (ih h)

/-- Looking up a name held by no pair of the list misses. -/
theorem lookup_eq_none_pairs {β : Type} (n : String) :
    ∀ l : List (String × β), (∀ p ∈ l, p.1 ≠ n) → List.lookup n l = none := by
  intro l
  induction l with
  | nil => intro _; rfl
  | cons p rest ih =>
    obtain ⟨m, w⟩ := p
    intro hall
    have hmn : ¬(n == m) = true := by
      simp only [beq_iff_eq]
      exact fun hEq => hall (m, w) (by simp) (by simp [hEq])
    simp only [List.lookup, hmn, if_false]
    exact ih fun p hp => hall p (by simp [hp])

/-- C8: `RecordValue.field(name)` returns the live reference stored
for the named child — the heap address itself, so a write through it
is visible in place — and fails `UnknownField` for a name not among
the record's fields; `ArrayValue.at(indexValue)` returns the stored
reference at physical position `i - indexLow` for a logical index in
the index type's domain and fails `IndexOutOfRange` outside it.
(`field`/`at` are modelled from the spec — see the `ValueOps`
namespace; neither record nor array values expose a wholesale
`assign` in the modelled interface, matching the `part_000` classes,
which define none.) -/
theorem childAccess_live_references (r : ValueOps.RecordValueR) (nm : String)
    (arr : ValueOps.ArrayValueR) (i : Int)
    (σ : ValueOps.Heap) (v : Interp.Value) :
    (∀ a, r.field nm = .ok a → (nm, a) ∈ r.fields ∧
      (a < σ.length → (σ.set a v)[a]? = some v)) ∧
    ((∀ p ∈ r.fields, p.1 ≠ nm) → r.field nm = .error (.unknownField nm)) ∧
    (arr.indexLow ≤ i → i ≤ arr.indexHigh →
      arr.items.length = (arr.indexHigh - arr.indexLow + 1).toNat →
      ∃ a, arr.atIndex i = .ok a ∧
        arr.items[(i - arr.indexLow).toNat]? = some a) ∧
    ((i < arr.indexLow ∨ arr.indexHigh < i) →
      arr.atIndex i = .error (.indexOutOfRange i)) := by
  refine ⟨?_, ?_, ?_, ?_⟩
  · intro a h
    cases hl : List.lookup nm r.fields with
    | none => simp [ValueOps.RecordValueR.field, hl] at h
    | some b =>
      have hab : a = b := by
        simpa [ValueOps.RecordValueR.field, hl] using h.symm
      subst hab
      exact ⟨lookup_mem_pairs nm a r.fields hl,
        fun ha => List.getElem?_set_eq_of_lt v ha⟩
  · intro hall
    simp [ValueOps.RecordValueR.field, lookup_eq_none_pairs nm r.fields hall]
  · intro h1 h2 hlen
    have hpos : (i - arr.indexLow).toNat < arr.items.length := by omega
    refine ⟨arr.items[(i - arr.indexLow).toNat], ?_,
      List.getElem?_eq_getElem hpos⟩
    simp only [ValueOps.ArrayValueR.atIndex, if_neg (by omega :
      ¬(i < arr.indexLow ∨ i > arr.indexHigh))]
    simp [List.getElem?_eq_getElem hpos]
  · intro h
    simp only [ValueOps.ArrayValueR.atIndex]
    rw [if_pos]
    omega

/-- Witness for C8: a record with one field `x` at address `0` returns
that live reference (a write at `0` reads back through it) and fails
`UnknownField` on `y`; the array of index domain `Range(5,7)` resolves
logical index `6` to its second slot and fails `IndexOutOfRange` at
`4` and `8`. -/
theorem childAccess_live_references_witness :
    ((ValueOps.RecordValueR.mk [("x", 0)]).field "x" = .ok 0 ∧
      (([.rangeV (.rangeTy 0 1) 0] : ValueOps.Heap).set 0
        (.rangeV (.rangeTy 0 1) 1))[0]? = some (.rangeV (.rangeTy 0 1) 1)) ∧
    (ValueOps.RecordValueR.mk [("x", 0)]).field "y" =
      .error (.unknownField "y") ∧
    (ValueOps.ArrayValueR.mk 5 7 [3, 4, 5]).atIndex 6 = .ok 4 ∧
    (ValueOps.ArrayValueR.mk 5 7 [3, 4, 5]).atIndex 4 =
      .error (.indexOutOfRange 4) ∧
    (ValueOps.ArrayValueR.mk 5 7 [3, 4, 5]).atIndex 8 =
      .error (.indexOutOfRange 8) := by
  refine ⟨?_, ?_, ?_, ?_, ?_⟩
  · have h := (childAccess_live_references ⟨[("x", 0)]⟩ "x" ⟨5, 7, [3, 4, 5]⟩ 6
      [.rangeV (.rangeTy 0 1) 0] (.rangeV (.rangeTy 0 1) 1)).1 0 rfl
    exact ⟨rfl, h.2 (by decide)⟩
  · exact (childAccess_live_references ⟨[("x", 0)]⟩ "y" ⟨5, 7, [3, 4, 5]⟩ 6
      [] (.rangeV (.rangeTy 0 1) 0)).2.1 (by decide)
  · have h := (childAccess_live_references ⟨[("x", 0)]⟩ "x" ⟨5, 7, [3, 4, 5]⟩ 6
      [] (.rangeV (.rangeTy 0 1) 0)).2.2.1 (by decide) (by decide) (by decide)
    obtain ⟨a, h1, h2⟩ := h
    have ha : a = 4 := by simpa using h2.symm
    rw [ha] at h1
    exact h1
  · exact (childAccess_live_references ⟨[("x", 0)]⟩ "x" ⟨5, 7, [3, 4, 5]⟩ 4
      [] (.rangeV (.rangeTy 0 1) 0)).2.2.2 (by decide)
  · exact (childAccess_live_references ⟨[("x", 0)]⟩ "x" ⟨5, 7, [3, 4, 5]⟩ 8
      [] (.rangeV (.rangeTy 0 1) 0)).2.2.2 (by decide)

/-- The variant-construction loop of the `EitherType` constructor
registers exactly the enum variants' tags in the local variable frame
(most recent first), leaves every other binding untouched, and adds
nothing for record variants. -/
theorem makeEitherVariants_registers_enum_tags (pid : Nat)
    (ds : List EitherModule.VariantDecl) :
    ∀ (tenv : Interp.Env) (venv : EitherModule.EnvB) (idx : Nat),
      (∀ d ∈ ds, ∀ n dt, d = .recordvariant n dt →
        (Interp.makeType dt tenv).isOk = true) →
      ∃ vs venv',
        EitherModule.makeEitherVariants ds tenv venv pid idx =
          .ok (vs, venv') ∧
        venv'.vars =
          (EitherModule.enumTagBindings pid ds idx).reverse ++ venv.vars := by
  induction ds with
  | nil =>
    intro tenv venv idx _
    exact ⟨[], venv, rfl, by simp [EitherModule.enumTagBindings]⟩
  | cons d rest ih =>
    intro tenv venv idx hres
    cases d with
    | enumvariant n =>
      obtain ⟨vs, venv', hmk, hvars⟩ := ih tenv
        (venv.assignVar n ⟨pid, idx, n, none⟩) (idx + 1)
        (fun d hd => hres d (by simp [hd]))
      refine ⟨⟨pid, idx, n, none⟩ :: vs, venv', ?_, ?_⟩
      · simp [EitherModule.makeEitherVariants,
          EitherModule.makeEitherVariant, hmk]
      · rw [hvars]
        simp [EitherModule.enumTagBindings, EitherModule.EnvB.assignVar]
    | recordvariant n dt =>
      have hok := hres (.recordvariant n dt) (by simp) n dt rfl
      cases hmt : Interp.makeType dt tenv with
      | error e =>
        rw [hmt] at hok
        simp [Except.isOk, Except.toBool] at hok
      | ok rt =>
        obtain ⟨vs, venv', hmk, hvars⟩ := ih tenv venv (idx + 1)
          (fun d hd => hres d (by simp [hd]))
        refine ⟨⟨pid, idx, n, some rt⟩ :: vs, venv', ?_, ?_⟩
        · simp [EitherModule.makeEitherVariants,
            EitherModule.makeEitherVariant, hmt, hmk]
        · rw [hvars]
          simp [EitherModule.enumTagBindings]

/-- C10: constructing an `EitherType` (the `either` arm of type
making) mutates its defining environment as a side effect, before any
value is created: each enum variant's singleton `EitherTag` is
registered as a variable binding under the variant's name, and record
variants add no variable binding — after construction the local
variable frame is exactly the enum-tag bindings (most recent first) on
top of the previous frame. Hypotheses: every record variant's payload
declaration resolves, and is free of either declarations (the nested
factory is modelled by the `part_000` `Type.make`, which registers
nothing; see `makeEitherVariant`). -/
theorem eitherType_make_registers_enum_tags (id : Nat)
    (ds : List EitherModule.VariantDecl) (tenv : Interp.Env)
    (venv : EitherModule.EnvB)
    (hres : ∀ d ∈ ds, ∀ n dt, d = .recordvariant n dt →
      (Interp.makeType dt tenv).isOk = true ∧ dt.eitherFree = true) :
    ∃ t venv',
      EitherModule.makeEitherType id ds tenv venv = .ok (t, venv') ∧
      t.id = id ∧
      venv'.vars =
        (EitherModule.enumTagBindings id ds 0).reverse ++ venv.vars := by
  obtain ⟨vs, venv', hmk, hvars⟩ :=
    makeEitherVariants_registers_enum_tags id ds tenv venv 0
      (fun d hd n dt hdt => (hres d hd n dt hdt).1)
  exact ⟨⟨id, vs⟩, venv',
    by simp [EitherModule.makeEitherType, hmk], rfl, hvars⟩

/-- Witness for C10: `either { A, B { x: 0..1 }, C }` registers the
tags of the enum variants `A` and `C` (and nothing for the record
variant `B`) in the defining environment's local frame. -/
theorem eitherType_make_registers_enum_tags_witness :
    ∃ t venv',
      EitherModule.makeEitherType 7
          [.enumvariant "A", .recordvariant "B" (.record [("x", .range 0 1)]),
            .enumvariant "C"] (.root [] []) ⟨[]⟩ =
        .ok (t, venv') ∧
      t.id = 7 ∧
      venv'.vars = [("C", ⟨7, 2, "C", none⟩), ("A", ⟨7, 0, "A", none⟩)] := by
  obtain ⟨t, venv', h1, h2, h3⟩ := eitherType_make_registers_enum_tags 7
    [.enumvariant "A", .recordvariant "B" (.record [("x", .range 0 1)]),
      .enumvariant "C"] (.root [] []) ⟨[]⟩
    (by
      intro d hd n dt hdt
      simp at hd
      rcases hd with rfl | rfl | rfl
      · cases hdt
      · cases hdt
        exact ⟨rfl, rfl⟩
      · cases hdt)
  refine ⟨t, venv', h1, h2, ?_⟩
  rw [h3]
  rfl
